import Mathlib

/-!
Verification development for the rexglue-sdk static recompiler.

The definitions below are a shallow embedding of the C++ sources:
* `src/codegen/builders/helpers.h` (compute_mask, crBitName,
  emitCRBitOperation, isMMIOUpperBits, getStoreMacro,
  emitBranchWithBoundsCheck),
* `src/codegen/builders/logical.cpp` (build_rlwinm, the cr-bit builders),
* `src/codegen/builders/control_flow.cpp` (build_b, build_bctr, the
  bdz/bdnz family),
* `src/codegen/builders/memory.cpp` (build_lis, build_stw),
* `src/codegen/instruction_dispatch.cpp` (DispatchInstruction),
* `src/codegen/recompiler.cpp` (printFunctionCall, printConditionalBranch),
* `src/kernel/xthread.cpp` (XThread ctor, GetTLSValue, SetTLSValue, Delay).

Machine integers are modelled as `Nat` with explicit masking by `2^w - 1`
where C++ would truncate, and signed values as `Int` via explicit
twos-complement conversions.  Builders that print host source text are
modelled as functions returning a list of `Line` values, one constructor
per distinct source statement the C++ emits; the payload of each
constructor records the formatted parameters of that statement.  Warning
and error log calls (`REXCODEGEN_WARN` / `REXCODEGEN_ERROR`) are counted.

A few declarations of this repository are not under `src/` (only their
callers are): the `BuilderContext` member functions from
`builder_context.h` and the `FunctionGraph` classifier.  Those are
modelled from the spec and carry a doc comment starting with
`Modelled from the spec:`.
-/

namespace RexGlue

def U32MAX : Nat := 2 ^ 32 - 1

def U64MAX : Nat := 2 ^ 64 - 1

/-- Embedding of `compute_mask` from `src/codegen/builders/helpers.h`:

```
mstart &= 0x3F; mstop &= 0x3F;
uint64_t value = (UINT64_MAX >> mstart) ^ ((mstop >= 63) ? 0 : UINT64_MAX >> (mstop + 1));
return mstart <= mstop ? value : ~value;
```
(`~value` on `uint64_t` is xor with `UINT64_MAX`). -/
def compute_mask (mstart mstop : Nat) : Nat :=
  let a := mstart &&& 0x3F
  let b := mstop &&& 0x3F
  let value := (U64MAX >>> a) ^^^ (if 63 ≤ b then 0 else U64MAX >>> (b + 1))
  if a ≤ b then value else U64MAX ^^^ value

/-- The PPC rotate-mask specification, written from the words of the spec
(for the refinement claim about `compute_mask`): position `p` is counted
from the most significant bit of the 64-bit word (so position `p` is value
bit `63 - p`); when `a ≤ b` exactly the positions in `[a..b]` are set;
when `a > b` the result is the complement of the positions strictly
between `b` and `a` (the wrapped mask). -/
def specMaskBit (a b p : Nat) : Bool :=
  if a ≤ b then decide (a ≤ p ∧ p ≤ b) else !(decide (b < p ∧ p < a))

/-- Text `__builtin_rotateleft64` on a 64-bit value. -/
def rotl64 (x n : Nat) : Nat :=
  let s := n % 64
  ((x <<< s) &&& U64MAX) ||| ((x &&& U64MAX) >>> (64 - s))

/-- Text `__builtin_rotateleft32` on a 32-bit value. -/
def rotl32 (x n : Nat) : Nat :=
  let s := n % 32
  ((x <<< s) &&& U32MAX) ||| ((x &&& U32MAX) >>> (32 - s))

/-- Value computed by the host statement that `build_rlwinm`
(`src/codegen/builders/logical.cpp`) prints:

```
rD.u64 = __builtin_rotateleft64(rS.u32 | (rS.u64 << 32), sh) & 0xMASK;
```
where `MASK = compute_mask(mb + 32, me + 32)`.  `rs` is the 64-bit
contents of the source register. -/
def rlwinm_emitted (rs sh mb me : Nat) : Nat :=
  (rotl64 ((rs &&& U32MAX) ||| ((rs <<< 32) &&& U64MAX)) sh) &&&
    compute_mask (mb + 32) (me + 32)

/-- Interpretation of a 32-bit pattern as a C `int32_t` (twos complement). -/
def sext32 (x : Nat) : Int :=
  if x < 2 ^ 31 then (x : Int) else (x : Int) - 2 ^ 32

/-- Interpretation of a 64-bit pattern as a C `int64_t` (twos complement). -/
def toInt64 (x : Nat) : Int :=
  if x < 2 ^ 63 then (x : Int) else (x : Int) - 2 ^ 64

/-! ## Condition-register bit operations (`helpers.h`, `logical.cpp`) -/

/-- One CR field: the four named flag bits of `CRRegister`. -/
structure CRField where
  lt : Bool
  gt : Bool
  eq : Bool
  so : Bool
deriving DecidableEq, Repr

/-- The eight CR fields, indexed by field number (cr0..cr7). -/
def CRFile : Type := Nat → CRField

/-- Embedding of `crBitName` from `helpers.h`:
`names[] = { "lt", "gt", "eq", "so" }; return names[bi & 3];`. -/
def crBitName (bi : Nat) : String :=
  match bi &&& 3 with
  | 0 => "lt"
  | 1 => "gt"
  | 2 => "eq"
  | _ => "so"

/-- Value of the member of a `CRField` selected by `crBitName bi`
(the meaning of the emitted text `crN.<name>`). -/
def crGetBit (f : CRField) (bi : Nat) : Bool :=
  match bi &&& 3 with
  | 0 => f.lt
  | 1 => f.gt
  | 2 => f.eq
  | _ => f.so

/-- Assignment to the member of a `CRField` selected by `crBitName bi`. -/
def crSetBit (f : CRField) (bi : Nat) (v : Bool) : CRField :=
  match bi &&& 3 with
  | 0 => { f with lt := v }
  | 1 => { f with gt := v }
  | 2 => { f with eq := v }
  | _ => { f with so := v }

/-- Reference to a single CR bit, `cr<crField>.<crBitName bit>`. -/
structure CRBitRef where
  crField : Nat
  bit : Nat
deriving DecidableEq, Repr

def crFileGet (s : CRFile) (ref : CRBitRef) : Bool :=
  crGetBit (s ref.crField) ref.bit

def crFileSet (s : CRFile) (ref : CRBitRef) (v : Bool) : CRFile :=
  fun i => if i = ref.crField then crSetBit (s i) ref.bit v else s i

/-- The one C++ statement printed by `emitCRBitOperation` (`helpers.h`),
as an abstract syntax record.  The source builds the statement text

```
crD = [!(] crA [)] <op> [!(] crB [)] ;        (whole rhs wrapped when invR)
```

with `crX` standing for `cr(crField_X).crBitName(crBit_X)` where
`crField_X = X / 4`, `crBit_X = X % 4`; `op` is the operator string the
caller passed (`"&"`, `"|"`, or, for `build_creqv`, `"="`). -/
structure CRStmt where
  dst : CRBitRef
  invA : Bool
  a : CRBitRef
  op : String
  invB : Bool
  b : CRBitRef
  invR : Bool
deriving DecidableEq, Repr

/-- Embedding of `emitCRBitOperation` from `helpers.h`: maps the three
operand bit indices to field/bit pairs and records the expression
structure of the emitted statement. -/
def emitCRBitOperation (op : String) (invertA invertB invertResult : Bool)
    (crD crA crB : Nat) : CRStmt :=
  { dst := ⟨crD / 4, crD % 4⟩
    invA := invertA
    a := ⟨crA / 4, crA % 4⟩
    op := op
    invB := invertB
    b := ⟨crB / 4, crB % 4⟩
    invR := invertResult }

def applyInv (inv : Bool) (v : Bool) : Bool := if inv then !v else v

/-- C++ semantics of the statement recorded by a `CRStmt`, as executed on
a CR file.  For `"&"` and `"|"` the statement is `dst = <pure expr>;` and
only the destination bit changes.  For `"="` the emitted text is the
chained assignment `dst = (a = b);`: the inner assignment stores the value of `b` into the *source* bit `a` and yields that value, which is then
stored into `dst`.  (`!(a) = b` would not compile, so the `"="` case with
an inverted or re-inverted left operand is `none`; the only caller,
`build_creqv`, passes no inversions.) -/
def evalCRStmt (st : CRStmt) (s : CRFile) : Option CRFile :=
  let av := applyInv st.invA (crFileGet s st.a)
  let bv := applyInv st.invB (crFileGet s st.b)
  match st.op with
  | "&" => some (crFileSet s st.dst (applyInv st.invR (av && bv)))
  | "|" => some (crFileSet s st.dst (applyInv st.invR (av || bv)))
  | "=" =>
      if st.invA || st.invR then none
      else
        let s1 := crFileSet s st.a bv
        some (crFileSet s1 st.dst bv)
  | _ => none

/-- Text `build_crand` (`logical.cpp`): `emitCRBitOperation(ctx, "&")`. -/
def build_crand (crD crA crB : Nat) : CRStmt :=
  emitCRBitOperation "&" false false false crD crA crB

/-- Text `build_crandc` (`logical.cpp`): `emitCRBitOperation(ctx, "&", false, true, false)`. -/
def build_crandc (crD crA crB : Nat) : CRStmt :=
  emitCRBitOperation "&" false true false crD crA crB

/-- Text `build_creqv` (`logical.cpp`): `emitCRBitOperation(ctx, "=")`. -/
def build_creqv (crD crA crB : Nat) : CRStmt :=
  emitCRBitOperation "=" false false false crD crA crB

/-- Text `build_crnand` (`logical.cpp`): `emitCRBitOperation(ctx, "&", false, false, true)`. -/
def build_crnand (crD crA crB : Nat) : CRStmt :=
  emitCRBitOperation "&" false false true crD crA crB

/-- Text `build_crnor` (`logical.cpp`): `emitCRBitOperation(ctx, "|", false, false, true)`. -/
def build_crnor (crD crA crB : Nat) : CRStmt :=
  emitCRBitOperation "|" false false true crD crA crB

/-- Text `build_cror` (`logical.cpp`): `emitCRBitOperation(ctx, "|")`. -/
def build_cror (crD crA crB : Nat) : CRStmt :=
  emitCRBitOperation "|" false false false crD crA crB

/-- Text `build_crorc` (`logical.cpp`): `emitCRBitOperation(ctx, "|", false, true, false)`. -/
def build_crorc (crD crA crB : Nat) : CRStmt :=
  emitCRBitOperation "|" false true false crD crA crB

/-! ## Emitted host-text lines -/

/-- One line of emitted host text, one constructor per distinct statement
shape the modelled builders print; the payload is the data the C++
formats into the line. -/
inductive Line where
  /-- Text `goto loc_<target>;` -/
  | gotoL (target : Nat)
  /-- Text `if (<cond>) goto loc_<target>;` -/
  | condGoto (cond : String) (target : Nat)
  /-- Text `if (<cond>) \x7b /* branch to 0x<target> outside function */ return; \x7d` -/
  | condRetOutside (cond : String) (target : Nat)
  /-- Text `if (<cond>) \x7b` -/
  | openIf (cond : String)
  /-- Text `\x7d` -/
  | closeBrace
  /-- Text `return;` -/
  | ret
  /-- Text `<name>(ctx, base);` -/
  | callFn (name : String)
  /-- the `longjmp(...)` special case of `printFunctionCall` -/
  | longjmpCall
  /-- the `setjmp` emission block of `printFunctionCall` -/
  | setjmpSeq
  /-- Text `// ERROR: unresolved function 0x<target>` -/
  | errUnresolvedFn (target : Nat)
  /-- Text `ctx.lr = 0x<value>;` -/
  | setLr (value : Nat)
  /-- Text `--<ctr>.u64;` -/
  | decCtr
  /-- Text `switch (<r indexReg>.u32) \x7b` -/
  | switchOn (indexReg : Nat)
  /-- Text `case <i>:` -/
  | caseL (i : Nat)
  /-- Text `// ERROR: jump target 0x<target> outside function bounds` -/
  | caseOutsideErr (target : Nat)
  /-- Text `default:` -/
  | defaultL
  /-- Text `__builtin_trap(); // Switch case out of range` -/
  | trapL
  /-- closing `\x7d` of the switch -/
  | closeSwitch
  /-- Text `PPC_CALL_INDIRECT_FUNC(<ctr>.u32);` -/
  | callIndirectCtr
  /-- Text `// <text>` -/
  | comment (text : String)
  /-- Text `PPC_UNIMPLEMENTED(0x<pc>, "<mnemonic>");` -/
  | unimpl (pc : Nat) (mnemonic : String)
  /-- Text `<r reg>.s64 = <value>;` -/
  | setRegS64 (reg : Nat) (value : Int)
  /-- Text `<macro>(<r baseReg>.u32 + <disp>, <r srcReg>.u32);` -/
  | storeU32 (macroName : String) (baseReg : Nat) (disp : Int) (srcReg : Nat)
deriving DecidableEq, Repr

/-- Result of running a builder: the printed lines plus the number of
`REXCODEGEN_WARN` and `REXCODEGEN_ERROR` log calls it made. -/
structure EmitOut where
  lines : List Line
  warns : Nat
  errors : Nat
deriving DecidableEq, Repr

def EmitOut.app (x y : EmitOut) : EmitOut :=
  ⟨x.lines ++ y.lines, x.warns + y.warns, x.errors + y.errors⟩

def EmitOut.nil : EmitOut := ⟨[], 0, 0⟩

def isCallLine (l : Line) : Bool :=
  match l with
  | .callFn _ => true
  | .longjmpCall => true
  | .setjmpSeq => true
  | .callIndirectCtr => true
  | _ => false

/-! ## Function graph, configuration, branch builders -/

/-- Text `JumpTable` (`recompiler.h` interface visible through the uses in
`control_flow.cpp` / `recompiler.cpp`): bctr address, index register and
target vector. -/
structure JumpTable where
  bctrAddress : Nat
  indexRegister : Nat
  targets : List Nat
deriving DecidableEq, Repr

/-- The function node as used by the branch builders: guest base and end
addresses (`fn.base()`, `fn.end()`) and auto-detected jump tables
(`fn.jumpTables()`).  `fnEnd` stands for the C++ `end()`. -/
structure FunctionNode where
  base : Nat
  fnEnd : Nat
  jumpTables : List JumpTable
deriving DecidableEq, Repr

/-- A function known to the graph: entry address and name. -/
structure GraphFn where
  base : Nat
  name : String
deriving DecidableEq, Repr

/-- The function graph as consulted by the builders: local functions and
kernel-import stubs. -/
structure Graph where
  functions : List GraphFn
  imports : List Nat
deriving DecidableEq, Repr

def Graph.getFunction (g : Graph) (addr : Nat) : Option GraphFn :=
  g.functions.find? (fun f => f.base == addr)

/-- Emitter configuration fields consumed by the modelled builders. -/
structure Config where
  skipLr : Bool
  ctrAsLocalVariable : Bool
  crRegistersAsLocalVariables : Bool
  nonVolatileRegistersAsLocalVariables : Bool
  longJmpAddress : Nat
  setJmpAddress : Nat
  switchTables : List (Nat × JumpTable)
deriving DecidableEq, Repr

/-- Name the emitter prints for CTR (`ctx.ctr()` in the builders):
`"ctr"` when promoted to a local, else `"ctx.ctr"`. -/
def ctrName (cfg : Config) : String :=
  if cfg.ctrAsLocalVariable then "ctr" else "ctx.ctr"

/-- Name the emitter prints for a CR field (`ctx.cr(i)`). -/
def crName (cfg : Config) (i : Nat) : String :=
  if cfg.crRegistersAsLocalVariables then "cr" ++ toString i else "ctx.cr" ++ toString i

inductive TargetKind where
  | InternalLabel
  | Function
  | Import
  | Unknown
deriving DecidableEq, Repr

/-- Modelled from the spec: `FunctionGraph::classifyTarget` is not under
`src/` (only its callers are).  Spec §4.5: every branch target is
classified into InternalLabel (inside this function and not the entry of
another), Function (entry of another local function), Import (kernel
stub), or Unknown; per the call-site comments in `build_b`/`build_bl`,
the own entry address of the function is a loop back (InternalLabel) for a
branch and a recursive call (Function) for a call. -/
def classifyTarget (g : Graph) (fn : FunctionNode) (target : Nat)
    (isCall : Bool) : TargetKind :=
  if target = fn.base then (if isCall then .Function else .InternalLabel)
  else if g.functions.any (fun f => f.base == target) then .Function
  else if g.imports.contains target then .Import
  else if fn.base ≤ target ∧ target < fn.fnEnd then .InternalLabel
  else .Unknown

/-- Embedding of `printFunctionCall` from `src/codegen/recompiler.cpp`
(reached by the builders as `ctx.emit_function_call`): special-cases the
configured longjmp/setjmp thunk addresses, then looks the target up in
the graph; a `__rest`/`__save` helper is suppressed when non-volatile
registers live in locals; an unknown target logs an error and prints an
error comment. -/
def printFunctionCall (cfg : Config) (g : Graph) (target : Nat) : EmitOut :=
  if target = cfg.longJmpAddress then ⟨[Line.longjmpCall], 0, 0⟩
  else if target = cfg.setJmpAddress then ⟨[Line.setjmpSeq], 0, 0⟩
  else
    match g.getFunction target with
    | some f =>
        if cfg.nonVolatileRegistersAsLocalVariables
            ∧ (f.name.startsWith "__rest" ∨ f.name.startsWith "__save") then
          EmitOut.nil
        else ⟨[Line.callFn f.name], 0, 0⟩
    | none => ⟨[Line.errUnresolvedFn target], 0, 1⟩

/-- Embedding of `build_b` from `src/codegen/builders/control_flow.cpp`. -/
def build_b (cfg : Config) (g : Graph) (fn : FunctionNode) (target : Nat) : EmitOut :=
  match classifyTarget g fn target false with
  | .InternalLabel => ⟨[Line.gotoL target], 0, 0⟩
  | .Function => (printFunctionCall cfg g target).app ⟨[Line.ret], 0, 0⟩
  | .Import => (printFunctionCall cfg g target).app ⟨[Line.ret], 0, 0⟩
  | .Unknown =>
      if fn.base ≤ target ∧ target < fn.fnEnd then ⟨[Line.gotoL target], 0, 0⟩
      else (EmitOut.app ⟨[], 1, 0⟩ (printFunctionCall cfg g target)).app ⟨[Line.ret], 0, 0⟩

/-- Embedding of `emitBranchWithBoundsCheck` from `helpers.h`: an
in-function target becomes `if (cond) goto loc_X;`, an out-of-function
target logs a warning and becomes a guarded `return;` with a comment. -/
def emitBranchWithBoundsCheck (fn : FunctionNode) (target : Nat)
    (condition : String) : EmitOut :=
  if target < fn.base ∨ fn.fnEnd ≤ target then
    ⟨[Line.condRetOutside condition target], 1, 0⟩
  else
    ⟨[Line.condGoto condition target], 0, 0⟩

/-- Text `build_bdz` (`control_flow.cpp`): decrement CTR, branch when zero. -/
def build_bdz (cfg : Config) (fn : FunctionNode) (target : Nat) : EmitOut :=
  EmitOut.app ⟨[Line.decCtr], 0, 0⟩
    (emitBranchWithBoundsCheck fn target (ctrName cfg ++ ".u32 == 0"))

/-- Text `build_bdnz` (`control_flow.cpp`): decrement CTR, branch when non-zero. -/
def build_bdnz (cfg : Config) (fn : FunctionNode) (target : Nat) : EmitOut :=
  EmitOut.app ⟨[Line.decCtr], 0, 0⟩
    (emitBranchWithBoundsCheck fn target (ctrName cfg ++ ".u32 != 0"))

/-- Text `build_bdnzf` (`control_flow.cpp`): operand 0 is the CR bit, operand 1
the target. -/
def build_bdnzf (cfg : Config) (fn : FunctionNode) (bi target : Nat) : EmitOut :=
  EmitOut.app ⟨[Line.decCtr], 0, 0⟩
    (emitBranchWithBoundsCheck fn target
      (ctrName cfg ++ ".u32 != 0 && !" ++ crName cfg (bi / 4) ++ "." ++ crBitName bi))

/-- Text `build_bdnzt` (`control_flow.cpp`). -/
def build_bdnzt (cfg : Config) (fn : FunctionNode) (bi target : Nat) : EmitOut :=
  EmitOut.app ⟨[Line.decCtr], 0, 0⟩
    (emitBranchWithBoundsCheck fn target
      (ctrName cfg ++ ".u32 != 0 && " ++ crName cfg (bi / 4) ++ "." ++ crBitName bi))

/-- Text `build_bdzf` (`control_flow.cpp`). -/
def build_bdzf (cfg : Config) (fn : FunctionNode) (bi target : Nat) : EmitOut :=
  EmitOut.app ⟨[Line.decCtr], 0, 0⟩
    (emitBranchWithBoundsCheck fn target
      (ctrName cfg ++ ".u32 == 0 && !" ++ crName cfg (bi / 4) ++ "." ++ crBitName bi))

/-- Embedding of `printConditionalBranch` from `src/codegen/recompiler.cpp`
(reached by the builders as `ctx.emit_conditional_branch`, used by
`build_beq`/`build_bne`/`build_blt`/… with a negation flag and a CR bit
name): operand 0 is the CR field, operand 1 the target. -/
def printConditionalBranch (cfg : Config) (g : Graph) (fn : FunctionNode)
    (not_ : Bool) (cond : String) (crIdx target : Nat) : EmitOut :=
  let condText := (if not_ then "!" else "") ++ crName cfg crIdx ++ "." ++ cond
  if target < fn.base ∨ fn.fnEnd ≤ target then
    ((EmitOut.app ⟨[Line.openIf condText], 0, 0⟩ (printFunctionCall cfg g target)).app
      ⟨[Line.ret, Line.closeBrace], 0, 0⟩)
  else
    ⟨[Line.condGoto condText target], 0, 0⟩

/-- Per-case emission loop of `build_bctr` (`control_flow.cpp`): case `i`
for the `i`-th target; a target outside the function bounds logs an error
and emits an error comment plus `return;`, otherwise a `goto`. -/
def bctrCases (fn : FunctionNode) : Nat → List Nat → EmitOut
  | _, [] => EmitOut.nil
  | i, t :: rest =>
      (EmitOut.app ⟨[Line.caseL i], 0, 0⟩
        (if t < fn.base ∨ fn.fnEnd ≤ t then ⟨[Line.caseOutsideErr t, Line.ret], 0, 1⟩
         else ⟨[Line.gotoL t], 0, 0⟩)).app
        (bctrCases fn (i + 1) rest)

/-- Embedding of `build_bctr` (`control_flow.cpp`): consult the
configured switch table for the current address first, then the
auto-detected jump tables of the function; with a bound table emit a
switch on the index register with one case per target and a trapping
default; without one, emit an indirect tail call through CTR. -/
def build_bctr (cfg : Config) (fn : FunctionNode) (curAddr : Nat) : EmitOut :=
  let fromConfig := (cfg.switchTables.find? (fun p => p.fst == curAddr)).map Prod.snd
  let jt :=
    match fromConfig with
    | some t => some t
    | none => fn.jumpTables.find? (fun t => t.bctrAddress == curAddr)
  match jt with
  | some t =>
      (EmitOut.app ⟨[Line.switchOn t.indexRegister], 0, 0⟩
        (bctrCases fn 0 t.targets)).app
        ⟨[Line.defaultL, Line.trapL, Line.closeSwitch], 0, 0⟩
  | none => ⟨[Line.callIndirectCtr, Line.ret], 0, 0⟩

/-- Host control-flow meaning of the emitted switch text: scan for
`case v:`; a following `goto loc_t;` dispatches to label `t`; any other
following line (the out-of-bounds error return) and the default case
(no matching `case v:`, hence `__builtin_trap()`) do not dispatch. -/
def switchDispatch : List Line → Nat → Option Nat
  | [], _ => none
  | Line.caseL i :: rest, v =>
      if i = v then
        match rest with
        | Line.gotoL t :: _ => some t
        | _ => none
      else switchDispatch rest v
  | _ :: rest, v => switchDispatch rest v

/-! ## MMIO flags, `build_lis`, `build_stw` -/

/-- Embedding of `isMMIOUpperBits` from `helpers.h`:
`(imm >= 0x7FC8 && imm <= 0x7FCF) || imm == 0x7FEA`. -/
def isMMIOUpperBits (imm : Nat) : Bool :=
  (decide (0x7FC8 ≤ imm) && decide (imm ≤ 0x7FCF)) || imm == 0x7FEA

/-- Per-register MMIO-base flags (`ctx.locals`, spec §4.2 "MMIO
propagation": a per-register is-MMIO-base flag). -/
def MmioFlags : Type := Nat → Bool

def set_mmio_base (fl : MmioFlags) (r : Nat) : MmioFlags :=
  fun i => if i = r then true else fl i

def clear_mmio_base (fl : MmioFlags) (r : Nat) : MmioFlags :=
  fun i => if i = r then false else fl i

/-- Embedding of `build_lis` from `src/codegen/builders/memory.cpp`:
prints `rD.s64 = (int32_t)(imm << 16);` and sets the MMIO-base flag of the destination exactly when `isMMIOUpperBits(imm)`, clearing it
otherwise.  Returns the emitted lines and the updated flags. -/
def build_lis (fl : MmioFlags) (dest imm : Nat) : EmitOut × MmioFlags :=
  (⟨[Line.setRegS64 dest (sext32 ((imm <<< 16) &&& U32MAX))], 0, 0⟩,
   if isMMIOUpperBits imm then set_mmio_base fl dest else clear_mmio_base fl dest)

/-- Modelled from the spec: `BuilderContext::mmio_check_d_form` lives in
`builder_context.h`, which is not under `src/`.  Spec §4.4: the check
returns true when the base register is currently flagged as an MMIO base
and, for `eieio`-guarded sequences, when the following instruction is an
`eieio`. -/
def mmio_check_d_form (fl : MmioFlags) (baseReg : Nat) (nextIsEieio : Bool) : Bool :=
  fl baseReg || nextIsEieio

/-- Embedding of `getStoreMacro` from `helpers.h`:
`return ctx.mmio_check_d_form() ? mmio_macro : normal_macro;`. -/
def getStoreMacro (fl : MmioFlags) (baseReg : Nat) (nextIsEieio : Bool)
    ( normal_macro mmio_macro : String) : String :=
  if mmio_check_d_form fl baseReg nextIsEieio then mmio_macro else normal_macro

/-- Modelled from the spec: `BuilderContext::emit_store_d_form` lives in
`builder_context.h`, which is not under `src/`.  Per spec §4.4 (D-form
addressing) and the store builders of `memory.cpp`, it prints one store
of `rS` at `rA + disp` through the normal macro or, when the d-form MMIO
check holds, through the `PPC_MM_*` variant. -/
def emit_store_d_form (fl : MmioFlags) (nextIsEieio : Bool)
    ( normal_macro mmio_macro : String) (srcReg : Nat) (disp : Int)
    (baseReg : Nat) : EmitOut :=
  ⟨[Line.storeU32 (getStoreMacro fl baseReg nextIsEieio normal_macro mmio_macro)
      baseReg disp srcReg], 0, 0⟩

/-- Embedding of `build_stw` from `memory.cpp`:
`ctx.emit_store_d_form("PPC_STORE_U32", "u32", true)`; the MMIO variant is
`PPC_MM_STORE_U32` (see `getStoreMacro` use in `helpers.h` and spec §8
scenario 2). -/
def build_stw (fl : MmioFlags) (nextIsEieio : Bool) (srcReg : Nat) (disp : Int)
    (baseReg : Nat) : EmitOut :=
  emit_store_d_form fl nextIsEieio "PPC_STORE_U32" "PPC_MM_STORE_U32" srcReg disp baseReg

/-! ## Instruction dispatch (`instruction_dispatch.cpp`) -/

/-- The builder context state visible to `DispatchInstruction`: current
guest address (`ctx.base`), the decoded mnemonic (`ctx.insn.opcode->name`)
and the output accumulated so far. -/
structure DCtx where
  pc : Nat
  mnemonic : String
  out : EmitOut
deriving Repr

/-- An entry of the dispatch table: builders mutate the output of the context
and return a success flag. -/
def Builder : Type := DCtx → Bool × EmitOut

/-- Embedding of `DispatchInstruction` (`instruction_dispatch.cpp`),
parametrised by the dispatch table (the table in the source is a static map of
about 350 `PPC_INST_*` → `build_*` entries; the claims only constrain the
lookup mechanism and the missing-entry path, which are modelled
verbatim): a found entry runs its builder; a missing entry logs a
warning, prints an `// UNIMPLEMENTED` comment plus a
`PPC_UNIMPLEMENTED(pc, mnemonic)` trap stub, and returns true. -/
def DispatchInstruction (table : List (Nat × Builder)) (id : Nat)
    (ctx : DCtx) : Bool × EmitOut :=
  match table.find? (fun p => p.fst == id) with
  | some p => p.snd ctx
  | none =>
      (true,
       ctx.out.app
         ⟨[Line.comment ("UNIMPLEMENTED: " ++ ctx.mnemonic),
           Line.unimpl ctx.pc ctx.mnemonic], 1, 0⟩)

/-! ## Guest thread (`xthread.cpp`) -/

inductive SleepResult where
  | kSuccess
  | kAlerted
deriving DecidableEq, Repr

inductive XStatus where
  | success
  | userApc
  | unsuccessful
deriving DecidableEq, Repr

/-- Observable outcome of `XThread::Delay`: the returned status, the host
sleep duration in milliseconds that was requested, and whether the
`assert_always()` on the absolute-time path fired. -/
structure DelayOutcome where
  status : XStatus
  timeoutMs : Nat
  asserted : Bool
deriving DecidableEq, Repr

/-- Embedding of `XThread::Delay` (`xthread.cpp`): the `uint64_t`
interval is reinterpreted as `int64_t`; a positive value (absolute time)
hits `assert_always()` (a TODO in the source) and leaves `timeout_ms = 0`;
a negative value is a relative wait of `-ticks / 10000` milliseconds
(truncated to `uint32_t`); the result is scaled by
`Clock::ScaleGuestDurationMillis` (modelled as the parameter `scale`, a
function of the scalar of the guest clock that is not under `src/`); an
alertable sleep that is interrupted by an APC returns `X_STATUS_USER_APC`,
every other path returns `X_STATUS_SUCCESS`. -/
def XThread_Delay (scale : Nat → Nat) (alertable : Bool) (interval : Nat)
    (sleepResult : SleepResult) : DelayOutcome :=
  let ticks : Int := toInt64 interval
  let p : Bool × Nat :=
    if 0 < ticks then (true, 0)
    else if ticks < 0 then (false, ((-ticks) / 10000).toNat % 2 ^ 32)
    else (false, 0)
  let ms := scale p.2
  if alertable then
    match sleepResult with
    | .kAlerted => ⟨XStatus.userApc, ms, p.1⟩
    | .kSuccess => ⟨XStatus.success, ms, p.1⟩
  else ⟨XStatus.success, ms, p.1⟩

/-- Embedding of `XThread::GetTLSValue` (`xthread.cpp`): fails when
`slot * 4 > tls_total_size_` (strictly greater, `uint32` arithmetic);
otherwise reads the 32-bit value at `tls_dynamic_address_ + slot * 4`,
returned here as the accessed guest address. -/
def XThread_GetTLSValue (tlsDynamicAddress tlsTotalSize slot : Nat) : Option Nat :=
  let off := (slot * 4) % 2 ^ 32
  if tlsTotalSize < off then none
  else some ((tlsDynamicAddress + off) % 2 ^ 32)

/-- Embedding of `XThread::SetTLSValue` (`xthread.cpp`): fails when
`slot * 4 >= tls_total_size_`; otherwise writes the 32-bit value at
`tls_dynamic_address_ + slot * 4`, returned here as the accessed guest
address. -/
def XThread_SetTLSValue (tlsDynamicAddress tlsTotalSize slot : Nat) : Option Nat :=
  let off := (slot * 4) % 2 ^ 32
  if tlsTotalSize ≤ off then none
  else some ((tlsDynamicAddress + off) % 2 ^ 32)

/-- Embedding of the stack-size adjustment in the `XThread` constructor
(`xthread.cpp`): `creation_params_.stack_size = stack_size;` followed by
`if (creation_params_.stack_size < 16 * 1024) creation_params_.stack_size = 16 * 1024;`.
`Create` later allocates the stack with exactly this stored value
(`AllocateStack(creation_params_.stack_size)`). -/
def XThread_ctor_stack_size (stack_size : Nat) : Nat :=
  if stack_size < 16 * 1024 then 16 * 1024 else stack_size

/-! ## Concrete inputs for evaluations -/

/-- A plain configuration: no local-variable promotion, no setjmp/longjmp
thunk addresses, no configured switch tables. -/
def cfgPlain : Config := ⟨false, false, false, false, 0, 0, []⟩

/-- A function spanning guest addresses 0x1000..0x2000. -/
def fnDemo : FunctionNode := ⟨0x1000, 0x2000, []⟩

/-- The jump table of the bctr scenario: switch on r3, three in-function
targets L0 = 0x1010, L1 = 0x1020, L2 = 0x1030. -/
def jtDemo : JumpTable := ⟨0x1500, 3, [0x1010, 0x1020, 0x1030]⟩

/-- Configuration binding `jtDemo` to the bctr at 0x1500. -/
def cfgBctr : Config := ⟨false, false, false, false, 0, 0, [(0x1500, jtDemo)]⟩

/-- A function spanning guest addresses 0x1000..0x2000 (bctr scenario). -/
def fnBctr : FunctionNode := ⟨0x1000, 0x2000, []⟩

end RexGlue

open RexGlue

/-! ## Helper lemmas -/

theorem land63_of_lt {x : Nat} (h : x < 64) : x &&& 0x3F = x := by
  have h6 : (0x3F : Nat) = 2 ^ 6 - 1 := by norm_num
  rw [h6, Nat.and_pow_two_sub_one_eq_mod]
  exact Nat.mod_eq_of_lt h

theorem U64MAX_eq : U64MAX = 2 ^ 64 - 1 := rfl

theorem shiftRight_U64MAX_lt (k : Nat) : U64MAX >>> k < 2 ^ 64 := by
  have h1 : U64MAX >>> k ≤ U64MAX := by
    rw [Nat.shiftRight_eq_div_pow]; exact Nat.div_le_self _ _
  have h2 : U64MAX < 2 ^ 64 := by norm_num [U64MAX]
  omega

theorem compute_mask_lt (a b : Nat) : compute_mask a b < 2 ^ 64 := by
  simp only [compute_mask]
  have hz : (0 : Nat) < 2 ^ 64 := by positivity
  have hv : (U64MAX >>> (a &&& 0x3F)) ^^^
      (if 63 ≤ b &&& 0x3F then 0 else U64MAX >>> ((b &&& 0x3F) + 1)) < 2 ^ 64 := by
    apply Nat.xor_lt_two_pow (shiftRight_U64MAX_lt _)
    split
    · exact hz
    · exact shiftRight_U64MAX_lt _
  split
  · exact hv
  · exact Nat.xor_lt_two_pow (by norm_num [U64MAX]) hv

theorem testBit_U64MAX (i : Nat) : Nat.testBit U64MAX i = decide (i < 64) := by
  rw [U64MAX_eq]; exact Nat.testBit_two_pow_sub_one 64 i

/-! ## Claim theorems -/

/-- C2: for every pair of 6-bit inputs, `compute_mask` returns the PPC
rotate-mask: the result fits in 64 bits, and the bit at position `p`
(numbered from the most significant bit, i.e. value bit `63 - p`) is set
exactly per the specification: when `a ≤ b` exactly positions `[a..b]`,
when `a > b` the complement of the positions strictly between `b` and `a`
(the wrapped mask). -/
theorem compute_mask_matches_spec :
    ∀ a b : Fin 64,
      compute_mask a.val b.val < 2 ^ 64 ∧
      ∀ p : Fin 64,
        Nat.testBit (compute_mask a.val b.val) (63 - p.val) = specMaskBit a.val b.val p.val := by
  rintro ⟨a, ha⟩ ⟨b, hb⟩
  refine ⟨compute_mask_lt a b, ?_⟩
  rintro ⟨p, hp⟩
  simp only
  simp only [compute_mask, specMaskBit]
  simp only [land63_of_lt ha, land63_of_lt hb]
  by_cases hab : a ≤ b
  · simp only [if_pos hab]
    by_cases hb63 : 63 ≤ b
    · simp only [if_pos hb63, Nat.xor_zero, Nat.testBit_shiftRight, testBit_U64MAX,
        decide_eq_decide]
      omega
    · simp only [if_neg hb63, Nat.testBit_xor, Nat.testBit_shiftRight, testBit_U64MAX]
      by_cases h1 : a + (63 - p) < 64 <;> by_cases h2 : b + 1 + (63 - p) < 64 <;>
        simp [h1, h2] <;> omega
  · simp only [if_neg hab]
    have hb63 : ¬ (63 ≤ b) := by omega
    simp only [if_neg hb63, Nat.testBit_xor, Nat.testBit_shiftRight, testBit_U64MAX]
    by_cases h1 : a + (63 - p) < 64 <;> by_cases h2 : b + 1 + (63 - p) < 64 <;>
      by_cases h3 : 63 - p < 64 <;> simp [h1, h2, h3] <;> omega

/-- C1 counterexample: executing the statement emitted for
`rlwinm r3, r4, 8, 16, 23` with `r4 = 0xAABBCCDD` yields a value whose low
8 bits are `0x00`, not `0xCC` as the claim states. -/
theorem rlwinm_low_byte_not_CC :
    ¬ ((rlwinm_emitted 0xAABBCCDD 8 16 23) &&& 0xFF = 0xCC) := by
  decide

/-- C1 (amended): for `rlwinm r3, r4, 8, 16, 23` with `r4 = 0xAABBCCDD`
the emitted code computes `rotl32(0xAABBCCDD, 8)` masked by
`compute_mask(16+32, 23+32)`, and the resulting value of `r3` is
`0x0000DD00`: bits 8..15 equal `0xDD` and all other bits (the low 8
included) are zero. -/
theorem rlwinm_AABBCCDD_result :
    rlwinm_emitted 0xAABBCCDD 8 16 23
        = (rotl32 0xAABBCCDD 8) &&& compute_mask (16 + 32) (23 + 32)
      ∧ rlwinm_emitted 0xAABBCCDD 8 16 23 = 0xDD00 := by
  constructor <;> decide

/-- C3: evaluation of `build_creqv` at a failing input.  With global bit
operands crD = 0 (cr0.lt), crA = 4 (cr1.lt), crB = 8 (cr2.lt) and a CR
file in which cr1.lt = false and cr2.lt = true, the emitted statement
`cr0.lt = cr1.lt = cr2.lt;` (the operator passed is the string `"="`, a
chained C++ assignment, not an equivalence) overwrites the source bit
cr1.lt with true and stores crB into the destination, instead of
computing the logical operation and writing only the destination bit:
afterwards cr1.lt = true (the source bit changed) and cr0.lt = true,
whereas crA XNOR crB = false. -/
theorem build_creqv_clobbers_source :
    (let s0 : CRFile := fun i =>
      if i = 2 then ⟨true, false, false, false⟩ else ⟨false, false, false, false⟩
    (evalCRStmt (build_creqv 0 4 8) s0).map
        (fun s => ((s 1).lt, (s 0).lt, (s 2).lt))
      = some (true, true, true)
    ∧ (s0 1).lt = false
    ∧ ((s0 1).lt == (s0 2).lt) = false) := by
  decide

/-- C6: translating `lis r4, 0x7FC8` emits `r4.s64 = 0x7FC80000;` and
marks r4 as an MMIO base in the per-register flags; a subsequently
translated `stw r5, 0(r4)` then selects the `PPC_MM_STORE_U32` macro
instead of `PPC_STORE_U32`; and for every upper-16 immediate, `build_lis`
sets the MMIO-base flag of the destination exactly when the immediate is
in `0x7FC8..0x7FCF` or equals `0x7FEA`. -/
theorem lis_marks_mmio_and_stw_uses_mm_store :
    (build_lis (fun _ => false) 4 0x7FC8).1.lines = [Line.setRegS64 4 0x7FC80000]
    ∧ ((build_lis (fun _ => false) 4 0x7FC8).2) 4 = true
    ∧ (build_stw ((build_lis (fun _ => false) 4 0x7FC8).2) false 5 0 4).lines
        = [Line.storeU32 "PPC_MM_STORE_U32" 4 0 5]
    ∧ (∀ fl : MmioFlags, ∀ dest imm : Nat,
        ((build_lis fl dest imm).2) dest = isMMIOUpperBits imm)
    ∧ (∀ imm : Nat,
        isMMIOUpperBits imm = true ↔ ((0x7FC8 ≤ imm ∧ imm ≤ 0x7FCF) ∨ imm = 0x7FEA)) := by
  refine ⟨by decide, by decide, by decide, ?_, ?_⟩
  · intro fl dest imm
    simp only [build_lis]
    split <;> simp_all [set_mmio_base, clear_mmio_base]
  · intro imm
    simp [isMMIOUpperBits]

/-- C7: for every opcode identifier with no entry in the dispatch table,
`DispatchInstruction` logs a warning, appends an `// UNIMPLEMENTED`
comment and a `PPC_UNIMPLEMENTED(pc, mnemonic)` trap stub to the output
(the instruction is never silently dropped), and returns true. -/
theorem dispatch_missing_emits_unimplemented :
    ∀ (table : List (Nat × Builder)) (id : Nat) (ctx : DCtx),
      table.find? (fun p => p.fst == id) = none →
      DispatchInstruction table id ctx
        = (true,
           ctx.out.app
             ⟨[Line.comment ("UNIMPLEMENTED: " ++ ctx.mnemonic),
               Line.unimpl ctx.pc ctx.mnemonic], 1, 0⟩) := by
  intro table id ctx h
  unfold DispatchInstruction
  rw [h]

/-- Witness for C7 at a concrete input: the empty table has no entry for
opcode id 99, and dispatching the instruction at guest pc 0x82000000 with
mnemonic "vmsum" emits the trap stub and reports success. -/
theorem dispatch_missing_emits_unimplemented_witness :
    DispatchInstruction [] 99 ⟨0x82000000, "vmsum", EmitOut.nil⟩
      = (true,
         EmitOut.nil.app
           ⟨[Line.comment ("UNIMPLEMENTED: " ++ "vmsum"),
             Line.unimpl 0x82000000 "vmsum"], 1, 0⟩) :=
  dispatch_missing_emits_unimplemented [] 99 ⟨0x82000000, "vmsum", EmitOut.nil⟩ rfl

/-- C8 counterexample: a positive interval (the absolute FILETIME form)
is not honoured by `XThread::Delay`: for two different positive intervals
(1 second and about 83 minutes past the epoch) the code performs the same
scaled zero-millisecond wait and fires `assert_always()`; no deadline is
computed from the interval. -/
theorem delay_positive_interval_ignored :
    XThread_Delay (fun ms => ms * 3) true 10000000 SleepResult.kSuccess
        = ⟨XStatus.success, 0, true⟩
    ∧ XThread_Delay (fun ms => ms * 3) true 50000000000 SleepResult.kSuccess
        = ⟨XStatus.success, 0, true⟩ := by
  constructor <;> decide

/-- C8 (amended): `XThread::Delay` honours the relative form: a negative
interval is a relative wait of `(-interval) / 10000` milliseconds (the
100-ns tick count divided down), scaled by the guest clock scale
function; a positive (absolute FILETIME) interval is not implemented: the
assertion fires and a scaled zero-millisecond wait is performed; the
returned status is `X_STATUS_USER_APC` exactly when the wait is alertable
and the sleep was interrupted by an APC, else `X_STATUS_SUCCESS`. -/
theorem delay_amended :
    ∀ (scale : Nat → Nat) (alertable : Bool) (interval : Nat) (sr : SleepResult),
      (toInt64 interval < 0 →
          (XThread_Delay scale alertable interval sr).timeoutMs
              = scale (((-(toInt64 interval)) / 10000).toNat % 2 ^ 32)
          ∧ (XThread_Delay scale alertable interval sr).asserted = false)
      ∧ (0 < toInt64 interval →
          (XThread_Delay scale alertable interval sr).timeoutMs = scale 0
          ∧ (XThread_Delay scale alertable interval sr).asserted = true)
      ∧ ((XThread_Delay scale alertable interval sr).status = XStatus.userApc
          ↔ (alertable = true ∧ sr = SleepResult.kAlerted)) := by
  intro scale alertable interval sr
  simp only [XThread_Delay]
  refine ⟨?_, ?_, ?_⟩
  · intro hneg
    have h0 : ¬ (0 < toInt64 interval) := by omega
    cases alertable <;> cases sr <;> simp [h0, hneg]
  · intro hpos
    cases alertable <;> cases sr <;> simp [hpos]
  · cases alertable <;> cases sr <;> simp

/-- Witness for C8 (amended) at concrete inputs: with scale doubling the
duration, a relative interval of 20000 ticks (interval bit pattern
`2^64 - 20000`) sleeps 4 ms, and an alertable sleep interrupted by an APC
returns `X_STATUS_USER_APC`. -/
theorem delay_amended_witness :
    (XThread_Delay (fun ms => ms * 2) true (2 ^ 64 - 20000) SleepResult.kAlerted).timeoutMs = 4
    ∧ (XThread_Delay (fun ms => ms * 2) true (2 ^ 64 - 20000) SleepResult.kAlerted).status
        = XStatus.userApc := by
  have h := delay_amended (fun ms => ms * 2) true (2 ^ 64 - 20000) SleepResult.kAlerted
  refine ⟨?_, ?_⟩
  · exact ((h.1 (by decide)).1).trans (by decide)
  · exact (h.2.2).mpr ⟨rfl, rfl⟩

/-- C9 counterexample: the two TLS accessors do not perform the same
bounds check.  With a dynamic TLS region of 8 bytes at 0x1000 and slot 2
(byte offset 8, one past the last valid offset), `GetTLSValue` succeeds
and reads at 0x1008 even though `slot * 4 < tls_total_size` is false
(`SetTLSValue` correctly fails there). -/
theorem tls_get_bounds_off_by_one :
    XThread_GetTLSValue 0x1000 8 2 = some 0x1008
    ∧ XThread_SetTLSValue 0x1000 8 2 = none
    ∧ ¬ (2 * 4 < 8) := by
  refine ⟨by decide, by decide, by decide⟩

/-- C9 (amended): for every slot, `SetTLSValue` succeeds exactly when the
32-bit byte offset `slot * 4` is strictly inside the region
(`slot * 4 < tls_total_size`), while `GetTLSValue` succeeds exactly when
`slot * 4 ≤ tls_total_size` (its check uses strictly-greater, admitting
one offset past the region); on success both access the 32-bit value at
`tls_dynamic_address + slot * 4`. -/
theorem tls_bounds_amended :
    ∀ dyn total slot : Nat,
      XThread_GetTLSValue dyn total slot
          = (if (slot * 4) % 2 ^ 32 ≤ total
             then some ((dyn + (slot * 4) % 2 ^ 32) % 2 ^ 32) else none)
      ∧ XThread_SetTLSValue dyn total slot
          = (if (slot * 4) % 2 ^ 32 < total
             then some ((dyn + (slot * 4) % 2 ^ 32) % 2 ^ 32) else none) := by
  intro dyn total slot
  constructor
  · simp only [XThread_GetTLSValue]
    by_cases h : (slot * 4) % 2 ^ 32 ≤ total
    · rw [if_neg (by omega), if_pos h]
    · rw [if_pos (by omega), if_neg h]
  · simp only [XThread_SetTLSValue]
    by_cases h : (slot * 4) % 2 ^ 32 < total
    · rw [if_neg (by omega), if_pos h]
    · rw [if_pos (by omega), if_neg h]

/-- C10: the guest-thread constructor enforces a minimum guest stack size
of 16 KiB: every requested size below `16 * 1024` is stored as exactly
`16 * 1024` (and `Create` allocates the stack from this stored value);
requests of at least 16 KiB are kept unchanged. -/
theorem xthread_min_stack :
    ∀ s : Nat,
      (s < 16 * 1024 → XThread_ctor_stack_size s = 16 * 1024)
      ∧ (16 * 1024 ≤ s → XThread_ctor_stack_size s = s) := by
  intro s
  unfold XThread_ctor_stack_size
  constructor
  · intro h; rw [if_pos h]
  · intro h; rw [if_neg (by omega)]

/-- Witness for C10 at concrete inputs: a 4 KiB request is raised to
16 KiB; a 64 KiB request is kept unchanged. -/
theorem xthread_min_stack_witness :
    XThread_ctor_stack_size 4096 = 16 * 1024 ∧ XThread_ctor_stack_size 65536 = 65536 :=
  ⟨(xthread_min_stack 4096).1 (by decide), (xthread_min_stack 65536).2 (by decide)⟩

/-! ## C4: branch builders and function bounds -/

theorem emitBranch_inside (fn : FunctionNode) (t : Nat) (cond : String)
    (h1 : fn.base ≤ t) (h2 : t < fn.fnEnd) :
    emitBranchWithBoundsCheck fn t cond = ⟨[Line.condGoto cond t], 0, 0⟩ := by
  unfold emitBranchWithBoundsCheck
  rw [if_neg (by omega)]

theorem emitBranch_outside (fn : FunctionNode) (t : Nat) (cond : String)
    (h : t < fn.base ∨ fn.fnEnd ≤ t) :
    emitBranchWithBoundsCheck fn t cond = ⟨[Line.condRetOutside cond t], 1, 0⟩ := by
  unfold emitBranchWithBoundsCheck
  rw [if_pos h]

theorem classifyTarget_internal (g : Graph) (fn : FunctionNode) (t : Nat)
    (h1 : fn.base ≤ t) (h2 : t < fn.fnEnd)
    (hany : g.functions.any (fun f => f.base == t) = false)
    (himp : g.imports.contains t = false) :
    classifyTarget g fn t false = TargetKind.InternalLabel := by
  unfold classifyTarget
  by_cases hbase : t = fn.base
  · rw [if_pos hbase]; rfl
  · rw [if_neg hbase, hany, himp]
    simp [h1, h2]

theorem classifyTarget_function (g : Graph) (fn : FunctionNode) (t : Nat)
    (hne : t ≠ fn.base)
    (hany : g.functions.any (fun f => f.base == t) = true) :
    classifyTarget g fn t false = TargetKind.Function := by
  unfold classifyTarget
  rw [if_neg hne, hany]
  simp

theorem printFunctionCall_known (cfg : Config) (g : Graph) (t : Nat) (f : GraphFn)
    (hlj : t ≠ cfg.longJmpAddress) (hsj : t ≠ cfg.setJmpAddress)
    (hf : Graph.getFunction g t = some f)
    (hsup : cfg.nonVolatileRegistersAsLocalVariables = false) :
    printFunctionCall cfg g t = ⟨[Line.callFn f.name], 0, 0⟩ := by
  unfold printFunctionCall
  rw [if_neg hlj, if_neg hsj, hf]
  simp [hsup]

/-- C4 (amended): a branch target inside `[fn.base(), fn.end())` is
emitted as a local label reference by every modelled branch builder
(unconditional `b`, the conditional `beq`-family via
`printConditionalBranch`, and the CTR-decrement family via
`emitBranchWithBoundsCheck`); a target outside those bounds is emitted by
`b` and by the conditional-branch family as a call to the target function
followed by `return;`, but by the CTR-decrement family (`bdz`, `bdnz`,
`bdnzf`, `bdnzt`, `bdzf`) as a warning plus a guarded `return;` with a
comment and no call. -/
theorem branch_target_bounds_amended :
    (∀ fn t cond, fn.base ≤ t → t < fn.fnEnd →
        emitBranchWithBoundsCheck fn t cond = ⟨[Line.condGoto cond t], 0, 0⟩)
    ∧ (∀ fn t cond, (t < fn.base ∨ fn.fnEnd ≤ t) →
        emitBranchWithBoundsCheck fn t cond = ⟨[Line.condRetOutside cond t], 1, 0⟩)
    ∧ (∀ cfg g fn t, fn.base ≤ t → t < fn.fnEnd →
        g.functions.any (fun f => f.base == t) = false →
        g.imports.contains t = false →
        build_b cfg g fn t = ⟨[Line.gotoL t], 0, 0⟩)
    ∧ (∀ cfg g fn t f, fn.base < fn.fnEnd → (t < fn.base ∨ fn.fnEnd ≤ t) →
        t ≠ cfg.longJmpAddress → t ≠ cfg.setJmpAddress →
        Graph.getFunction g t = some f →
        cfg.nonVolatileRegistersAsLocalVariables = false →
        build_b cfg g fn t = ⟨[Line.callFn f.name, Line.ret], 0, 0⟩)
    ∧ (∀ cfg fn t, (t < fn.base ∨ fn.fnEnd ≤ t) →
        build_bdnz cfg fn t
          = ⟨[Line.decCtr, Line.condRetOutside (ctrName cfg ++ ".u32 != 0") t], 1, 0⟩)
    ∧ (∀ cfg g fn not_ cond crIdx t, fn.base ≤ t → t < fn.fnEnd →
        printConditionalBranch cfg g fn not_ cond crIdx t
          = ⟨[Line.condGoto
                ((if not_ then "!" else "") ++ crName cfg crIdx ++ "." ++ cond) t], 0, 0⟩)
    ∧ (∀ cfg g fn not_ cond crIdx t f, (t < fn.base ∨ fn.fnEnd ≤ t) →
        t ≠ cfg.longJmpAddress → t ≠ cfg.setJmpAddress →
        Graph.getFunction g t = some f →
        cfg.nonVolatileRegistersAsLocalVariables = false →
        printConditionalBranch cfg g fn not_ cond crIdx t
          = ⟨[Line.openIf ((if not_ then "!" else "") ++ crName cfg crIdx ++ "." ++ cond),
              Line.callFn f.name, Line.ret, Line.closeBrace], 0, 0⟩) := by
  refine ⟨emitBranch_inside, emitBranch_outside, ?_, ?_, ?_, ?_, ?_⟩
  · intro cfg g fn t h1 h2 hany himp
    unfold build_b
    rw [classifyTarget_internal g fn t h1 h2 hany himp]
  · intro cfg g fn t f hwf houts hlj hsj hf hsup
    have hne : t ≠ fn.base := by omega
    have hmem := List.mem_of_find?_eq_some hf
    have hpred := List.find?_some hf
    have hany : g.functions.any (fun f => f.base == t) = true :=
      List.any_eq_true.mpr ⟨f, hmem, hpred⟩
    unfold build_b
    rw [classifyTarget_function g fn t hne hany,
      printFunctionCall_known cfg g t f hlj hsj hf hsup]
    rfl
  · intro cfg fn t h
    unfold build_bdnz
    rw [emitBranch_outside fn t _ h]
    rfl
  · intro cfg g fn not_ cond crIdx t h1 h2
    unfold printConditionalBranch
    rw [if_neg (by omega)]
  · intro cfg g fn not_ cond crIdx t f h hlj hsj hf hsup
    unfold printConditionalBranch
    rw [if_pos h, printFunctionCall_known cfg g t f hlj hsj hf hsup]
    rfl

/-- C4 counterexample: `bdnz` to the out-of-function target 0x3000 from
the function 0x1000..0x2000 emits `--ctr;` and a guarded `return;` with a
comment — the emitted lines contain no call to the target function, so
the claim that every out-of-bounds target is emitted as a call followed
by `return;` fails on the CTR-decrement builders. -/
theorem bdnz_outside_emits_no_call :
    (build_bdnz cfgPlain fnDemo 0x3000).lines
        = [Line.decCtr, Line.condRetOutside "ctx.ctr.u32 != 0" 0x3000]
    ∧ (build_bdnz cfgPlain fnDemo 0x3000).lines.countP isCallLine = 0
    ∧ ((0x3000 : Nat) < fnDemo.base ∨ fnDemo.fnEnd ≤ 0x3000) := by
  refine ⟨by decide, by decide, by decide⟩

/-- Witness for C4 (amended) at concrete inputs: an unconditional `b` to
the outside target 0x3000 (a known function `sub_3000`) emits a call
followed by `return;`, and a `bdnz` to the in-function target 0x1500
emits a conditional `goto`. -/
theorem branch_target_bounds_amended_witness :
    build_b cfgPlain ⟨[⟨0x3000, "sub_3000"⟩], []⟩ fnDemo 0x3000
        = ⟨[Line.callFn "sub_3000", Line.ret], 0, 0⟩
    ∧ build_bdnz cfgPlain fnDemo 0x1500
        = ⟨[Line.decCtr, Line.condGoto "ctx.ctr.u32 != 0" 0x1500], 0, 0⟩ := by
  have h := branch_target_bounds_amended
  refine ⟨?_, ?_⟩
  · exact h.2.2.2.1 cfgPlain ⟨[⟨0x3000, "sub_3000"⟩], []⟩ fnDemo 0x3000 ⟨0x3000, "sub_3000"⟩
      (by decide) (by decide) (by decide) (by decide) (by decide) (by decide)
  · have h1 := h.1 fnDemo 0x1500 "ctx.ctr.u32 != 0" (by decide) (by decide)
    unfold build_bdnz
    rw [show ctrName cfgPlain ++ ".u32 != 0" = "ctx.ctr.u32 != 0" from by decide, h1]
    rfl

/-! ## C5: bctr jump-table switch -/

theorem bctrCases_cons_inside (fn : FunctionNode) (i t : Nat) (rest : List Nat)
    (h1 : fn.base ≤ t) (h2 : t < fn.fnEnd) :
    (bctrCases fn i (t :: rest)).lines
      = Line.caseL i :: Line.gotoL t :: (bctrCases fn (i + 1) rest).lines := by
  simp only [bctrCases]
  rw [if_neg (by omega)]
  simp [EmitOut.app]

theorem bctrCases_hit (fn : FunctionNode) (ts : List Nat)
    (hin : ∀ t ∈ ts, fn.base ≤ t ∧ t < fn.fnEnd) :
    ∀ i k (l2 : List Line), k < ts.length →
      switchDispatch ((bctrCases fn i ts).lines ++ l2) (i + k) = ts.get? k := by
  induction ts with
  | nil => intro i k l2 hk; exact absurd hk (by simp)
  | cons t rest ih =>
      intro i k l2 hk
      have hbound := hin t (List.mem_cons_self _ _)
      have hrest : ∀ x ∈ rest, fn.base ≤ x ∧ x < fn.fnEnd :=
        fun x hx => hin x (List.mem_cons_of_mem _ hx)
      rw [bctrCases_cons_inside fn i t rest hbound.1 hbound.2]
      cases k with
      | zero => simp [switchDispatch]
      | succ k' =>
          have hne : ¬ (i = i + (k' + 1)) := by omega
          simp only [List.cons_append, switchDispatch, if_neg hne]
          have harith : i + (k' + 1) = (i + 1) + k' := by omega
          rw [harith]
          simpa using ih hrest (i + 1) k' l2 (by simpa using hk)

theorem bctrCases_miss (fn : FunctionNode) (ts : List Nat) :
    ∀ i v (l2 : List Line), (v < i ∨ i + ts.length ≤ v) →
      switchDispatch ((bctrCases fn i ts).lines ++ l2) v = switchDispatch l2 v := by
  induction ts with
  | nil => intro i v l2 _; simp [bctrCases, EmitOut.nil]
  | cons t rest ih =>
      intro i v l2 h
      have hne : ¬ (i = v) := by
        simp only [List.length_cons] at h
        omega
      have hrec : v < i + 1 ∨ (i + 1) + rest.length ≤ v := by
        simp only [List.length_cons] at h
        omega
      simp only [bctrCases]
      by_cases hb : t < fn.base ∨ fn.fnEnd ≤ t
      · rw [if_pos hb]
        simp only [EmitOut.app, List.cons_append, List.append_assoc, List.nil_append,
          switchDispatch, if_neg hne]
        exact ih (i + 1) v l2 hrec
      · rw [if_neg hb]
        simp only [EmitOut.app, List.cons_append, List.append_assoc, List.nil_append,
          switchDispatch, if_neg hne]
        exact ih (i + 1) v l2 hrec

/-- C5: for every `bctr` with a bound jump table whose targets all lie
inside the owning function, the emitted switch on the index register
dispatches case `i` (for every `0 ≤ i < n`) to the label of `targets[i]`,
and every index `≥ n` falls into the trapping default case. -/
theorem bctr_bound_table_dispatch :
    ∀ (cfg : Config) (fn : FunctionNode) (curAddr : Nat) (jt : JumpTable),
      ((cfg.switchTables.find? (fun p => p.fst == curAddr)).map Prod.snd = some jt) →
      (∀ t ∈ jt.targets, fn.base ≤ t ∧ t < fn.fnEnd) →
      (∀ k, k < jt.targets.length →
          switchDispatch (build_bctr cfg fn curAddr).lines k = jt.targets.get? k)
      ∧ (∀ v, jt.targets.length ≤ v →
          switchDispatch (build_bctr cfg fn curAddr).lines v = none) := by
  intro cfg fn curAddr jt hfind hin
  have hlines : (build_bctr cfg fn curAddr).lines
      = Line.switchOn jt.indexRegister ::
          ((bctrCases fn 0 jt.targets).lines
            ++ [Line.defaultL, Line.trapL, Line.closeSwitch]) := by
    simp only [build_bctr, hfind]
    simp [EmitOut.app]
  constructor
  · intro k hk
    rw [hlines]
    have h := bctrCases_hit fn jt.targets hin 0 k
      [Line.defaultL, Line.trapL, Line.closeSwitch] hk
    simpa [switchDispatch] using h
  · intro v hv
    rw [hlines]
    have h := bctrCases_miss fn jt.targets 0 v
      [Line.defaultL, Line.trapL, Line.closeSwitch] (Or.inr (by omega))
    simp only [switchDispatch]
    rw [h]
    rfl

/-- Witness for C5 at the concrete scenario of the claim: bctr at 0x1500
with indexRegister = r3 and targets [L0, L1, L2] all inside the function
0x1000..0x2000; index 1 dispatches to L1 = 0x1020 and index 3 (past the
last entry) traps. -/
theorem bctr_bound_table_dispatch_witness :
    switchDispatch (build_bctr cfgBctr fnBctr 0x1500).lines 1 = some 0x1020
    ∧ switchDispatch (build_bctr cfgBctr fnBctr 0x1500).lines 3 = none := by
  have h := bctr_bound_table_dispatch cfgBctr fnBctr 0x1500 jtDemo (by decide) (by decide)
  refine ⟨?_, ?_⟩
  · exact (h.1 1 (by decide)).trans (by decide)
  · exact h.2 3 (by decide)
